import Mathlib

/-! Verification development for the McSAS3 Monte Carlo optimizer core
(`mcsas3/mccore.py`), its multi-repetition aggregator (`mcsas3/mcanalysis.py`)
and the HDF5 key/value storage helper (`mcsas3/McHDF.py`).

Modelling conventions:
* float arithmetic is modelled by exact rationals (`ℚ`); intensity vectors,
  histogram heights and bin edges by `List ℚ`;
* the form-factor kernel is opaque (spec §6): a function from a parameter
  record `P` to the pair `(Fsq, V_shell)` returned by
  `sasmodels.direct_model.call_Fq`, with the static-parameter merge folded
  into the kernel function itself;
* Python exception propagation is modelled by the `Except` monad;
* NaN values arising from a standard deviation whose degrees-of-freedom
  divisor is zero are modelled as `none`; standard deviations are represented
  by their squares so all definitions stay executable (a std equals 0 iff its
  square is `some 0`; a std is NaN iff its square is `none`). -/

/-- Error kinds from spec §7 that the embedded code can signal.
`illConditioned` comes from the scale/background solver (OSB), whose source
is outside the core files; per spec §4.1 it fails on a singular normal
matrix.  `reloadMismatch` models the `np.testing.assert_approx_equal`
failures in `McCore.__init__`; `binEdgeMismatch` the bin-edge assertion in
`McAnalysis.averageHistogram`. -/
inductive McError
  | illConditioned
  | reloadMismatch
  | binEdgeMismatch
deriving DecidableEq

deriving instance DecidableEq for Except

/-- Elementwise sum of two equal-length vectors (numpy `+`). -/
def vecAdd (a b : List ℚ) : List ℚ := List.zipWith (· + ·) a b

/-- Elementwise difference of two equal-length vectors (numpy `-`). -/
def vecSub (a b : List ℚ) : List ℚ := List.zipWith (· - ·) a b

/-- Division of a vector by a scalar (numpy `/`). -/
def vecDivS (a : List ℚ) (c : ℚ) : List ℚ := a.map (· / c)

/-- The mutable model/ensemble state of `McModel` used by `McCore`:
the contribution table `parameterSet` (one row per contribution), the
per-contribution `volumes`, the scratch `pickParameters`, and `nContrib`. -/
structure McModelState (P : Type) where
  nContrib : ℕ
  parameterSet : List P
  volumes : List ℚ
  pickParameters : P
deriving DecidableEq

/-- The optimization state of `McOpt` used by `McCore`: current model
intensity, scratch trial fields, scaling/background pair `x0`, goodness of
fit, counters and termination targets. -/
structure McOptState where
  modelI : List ℚ
  testModelI : List ℚ
  testModelV : ℚ
  x0 : ℚ × ℚ
  testX0 : ℚ × ℚ
  gof : ℚ
  step : ℕ
  accepted : ℕ
  maxIter : ℕ
  maxAccept : ℕ
  convCrit : ℚ
deriving DecidableEq

/-- The state owned by one `McCore` instance: its model and its optimizer. -/
structure McState (P : Type) where
  model : McModelState P
  opt : McOptState
deriving DecidableEq

/-- The fixed collaborators of a `McCore` instance: the bound form-factor
kernel (`sasmodels.direct_model.call_Fq` with the static parameters merged
in, returning `(Fsq, V_shell)`), and the scale/background solver
`optimizeScalingAndBackground.match`.  The OSB source is not among the core
files; modelled from the spec (§4.1): it returns the optimal `(scaling,
background)` pair together with the GOF, or fails with `IllConditioned`. -/
structure McSetup (P : Type) where
  callFq : P → List ℚ × ℚ
  osbMatch : List ℚ → ℚ × ℚ → Except McError ((ℚ × ℚ) × ℚ)

variable {P : Type} [Inhabited P]

/-- `McCore.calcModelIV`: one kernel call, returning `(Fsq/V_shell, V_shell)`. -/
def calcModelIV (callFq : P → List ℚ × ℚ) (parameters : P) : List ℚ × ℚ :=
  let r := callFq parameters
  (r.1.map (· / r.2), r.2)

/-- `McCore.contribIndex`: the contribution up for replacement at the current
step, strictly round-robin `step % nContrib`. -/
def contribIndex (s : McState P) : ℕ :=
  s.opt.step % s.model.nContrib

/-- `McCore.initModelI`: recompute the total intensity from scratch by
summing `Fsq_i/V_i / nContrib` over every contribution, and refill the
volumes table.  Returns `(modelI, volumes)`. -/
def initModelICalc (callFq : P → List ℚ × ℚ) (m : McModelState P) :
    List ℚ × List ℚ :=
  let I0 := (calcModelIV callFq (m.parameterSet.getD 0 default)).1
  (List.range m.nContrib).foldl
    (fun acc i =>
      let IV := calcModelIV callFq (m.parameterSet.getD i default)
      (vecAdd acc.1 (vecDivS IV.1 (m.nContrib : ℚ)), acc.2.set i IV.2))
    (I0.map (fun _ => 0), List.replicate m.nContrib 0)

/-- `McCore.evaluate`: run the OSB on `testData` (defaulting to the current
`modelI`) warm-started at the current `x0`; store the resulting pair in
`testX0` and return the GOF.  An OSB failure propagates (no handler in the
source). -/
def evaluate (su : McSetup P) (s : McState P) (testData : Option (List ℚ)) :
    Except McError (McState P × ℚ) :=
  let td := testData.getD s.opt.modelI
  match su.osbMatch td s.opt.x0 with
  | .error e => .error e
  | .ok r => .ok ({ s with opt := { s.opt with testX0 := r.1 } }, r.2)

/-- `McCore.reEvaluate`: recompute the old contribution's intensity by a
fresh kernel call on `parameterSet[contribIndex]`, compute the pick's
intensity and volume, form the trial total intensity
`modelI + (Ipick - Iold)/nContrib`, store the trial fields and evaluate. -/
def reEvaluate (su : McSetup P) (s : McState P) :
    Except McError (McState P × ℚ) :=
  let Iold := (calcModelIV su.callFq
    (s.model.parameterSet.getD (contribIndex s) default)).1
  let IpickV := calcModelIV su.callFq s.model.pickParameters
  let testModelI := vecAdd s.opt.modelI
    (vecDivS (vecSub IpickV.1 Iold) (s.model.nContrib : ℚ))
  let s1 := { s with opt :=
    { s.opt with testModelI := testModelI, testModelV := IpickV.2 } }
  evaluate su s1 (some s1.opt.testModelI)

/-- `McCore.accept`: commit the pick into the ensemble and the trial fields
into the optimizer state, and count the accepted move. -/
def accept (s : McState P) : McState P :=
  { model := { s.model with
      parameterSet := s.model.parameterSet.set (contribIndex s)
        s.model.pickParameters,
      volumes := s.model.volumes.set (contribIndex s) s.opt.testModelV },
    opt := { s.opt with
      modelI := s.opt.testModelI,
      x0 := s.opt.testX0,
      accepted := s.opt.accepted + 1 } }

/-- `McModel.pick` as seen from `McCore.iterate`: the random draw is an
input `p`, written into `pickParameters`. -/
def setPick (p : P) (s : McState P) : McState P :=
  { s with model := { s.model with pickParameters := p } }

/-- `McCore.iterate`: pick, re-evaluate, accept when the new GOF is a strict
improvement, and increment the step counter in either case. -/
def iterate (su : McSetup P) (p : P) (s : McState P) :
    Except McError (McState P) :=
  let s0 := setPick p s
  match reEvaluate su s0 with
  | .error e => .error e
  | .ok r =>
    let s1 := r.1
    let newGof := r.2
    let s2 :=
      if newGof < s1.opt.gof then
        let sa := accept s1
        { sa with opt := { sa.opt with gof := newGof } }
      else s1
    .ok { s2 with opt := { s2.opt with step := s2.opt.step + 1 } }

/-- `McCore.optimize`: iterate while `accepted < maxAccept` and
`step < maxIter` and `gof > convCrit`.  The random draw at step `n` is
`picks n`; `fuel` bounds the recursion (each loop pass increments `step`,
so any `fuel ≥ maxIter - step` is enough). -/
def optimizeAux (su : McSetup P) (picks : ℕ → P) :
    ℕ → McState P → Except McError (McState P)
  | 0, s => .ok s
  | fuel + 1, s =>
    if s.opt.accepted < s.opt.maxAccept ∧ s.opt.step < s.opt.maxIter ∧
        s.opt.convCrit < s.opt.gof then
      match iterate su (picks s.opt.step) s with
      | .error e => .error e
      | .ok s1 => optimizeAux su picks fuel s1
    else .ok s

/-- `McCore.optimize` with the fuel it can actually consume. -/
def optimize (su : McSetup P) (picks : ℕ → P) (s : McState P) :
    Except McError (McState P) :=
  optimizeAux su picks (s.opt.maxIter - s.opt.step) s

/-- `np.testing.assert_approx_equal(actual, desired, significant)` as a
Boolean test over exact rationals: equal values pass; otherwise both are
rescaled by `10 ^ ⌊log10 ((|desired| + |actual|)/2)⌋` and the difference of
the rescaled values must be < `10 ^ (1 - significant)`. -/
def assertApproxOk (significant : ℕ) (actual desired : ℚ) : Bool :=
  if actual = desired then true
  else
    let scale : ℚ := (|desired| + |actual|) / 2
    let scale : ℚ := (10 : ℚ) ^ (Int.log 10 scale)
    decide (|desired / scale - actual / scale| <
      (10 : ℚ) ^ ((1 : ℤ) - (significant : ℤ)))

/-- The load path of `McCore.__init__`: remember the stored `gof` and `x0`,
recompute `modelI` and the volumes from scratch (`initModelI`), re-run the
OSB (`evaluate`), adopt the fresh `gof` and `x0`, then require the stored
`gof`, scaling and background to agree with the recomputed ones to 3
significant figures; any disagreement is a reload mismatch. -/
def initFromLoad (su : McSetup P) (loaded : McState P) :
    Except McError (McState P) :=
  let testGof := loaded.opt.gof
  let testX0 := loaded.opt.x0
  let mv := initModelICalc su.callFq loaded.model
  let s := { loaded with
    model := { loaded.model with volumes := mv.2 },
    opt := { loaded.opt with modelI := mv.1 } }
  match evaluate su s none with
  | .error e => .error e
  | .ok r =>
    let s1 := r.1
    let s2 := { s1 with opt := { s1.opt with gof := r.2, x0 := s1.opt.testX0 } }
    if assertApproxOk 3 testGof s2.opt.gof &&
        assertApproxOk 3 testX0.1 s2.opt.x0.1 &&
        assertApproxOk 3 testX0.2 s2.opt.x0.2 then
      .ok s2
    else
      .error .reloadMismatch

/-- Is an `Except` value a success? -/
def isOkE {ε α : Type} : Except ε α → Bool
  | .ok _ => true
  | .error _ => false

/-! ### The multi-repetition aggregator, `mcsas3/mcanalysis.py` -/

/-- Column-wise mean over a list of equal-length rows
(numpy `mean(axis=0)` / pandas `DataFrame.mean()`). -/
def meanAx0 (rows : List (List ℚ)) : List ℚ :=
  match rows with
  | [] => []
  | r0 :: _ =>
    (List.range r0.length).map (fun j =>
      (rows.map (fun row => row.getD j 0)).sum / (rows.length : ℚ))

/-- Column-wise squared standard deviation over a list of equal-length rows
with a delta-degrees-of-freedom `ddof` (numpy `std(axis=0, ddof)` / pandas
`DataFrame.std(ddof)`, squared).  When the divisor `n - ddof` is not
positive both libraries yield NaN, modelled as `none`. -/
def stdSqAx0 (ddof : ℕ) (rows : List (List ℚ)) : List (Option ℚ) :=
  match rows with
  | [] => []
  | r0 :: _ =>
    (List.range r0.length).map (fun j =>
      let col := rows.map (fun row => row.getD j 0)
      let m := col.sum / (col.length : ℚ)
      let ssd := (col.map (fun x => (x - m) ^ 2)).sum
      if rows.length ≤ ddof then none
      else some (ssd / ((rows.length - ddof : ℕ) : ℚ)))

/-- The averaged-histogram table built by `McAnalysis.averageHistogram`
(its `yStd` column represented squared, NaN as `none`). -/
structure AveragedHistogram where
  yMean : List ℚ
  yStdSq : List (Option ℚ)
  xWidth : List ℚ
  xMean : List ℚ
deriving DecidableEq

/-- `McAnalysis.averageHistogram` for one histogram range: stack the
per-repetition bar heights, average them per bin (std with `ddof = 1` when
there is more than one repetition, else `ddof = 0`); when more than one
repetition exists assert that the bin edges of the repetitions listed first
and second coincide; then derive bar widths and centers from the first
listed repetition's edges. -/
def averageHistogram (repList : List ℕ) (concatHistograms : ℕ → List ℚ)
    (concatBinEdges : ℕ → List ℚ) : Except McError AveragedHistogram :=
  let hists := repList.map concatHistograms
  let yMean := meanAx0 hists
  let yStdSq := stdSqAx0 (if 1 < hists.length then 1 else 0) hists
  if 1 < repList.length ∧
      ¬ concatBinEdges (repList.getD 0 0) = concatBinEdges (repList.getD 1 0)
  then .error .binEdgeMismatch
  else
    let binEdges := concatBinEdges (repList.getD 0 0)
    let xWidth := List.zipWith (· - ·) (binEdges.drop 1) binEdges
    let xMean := List.zipWith (fun e w => e + w / 2) binEdges.dropLast xWidth
    .ok ⟨yMean, yStdSq, xWidth, xMean⟩

/-- The averaged-modes table built by `McAnalysis.averageMode`
(its `valStd` column represented squared, NaN as `none`). -/
structure AveragedMode where
  valMean : List ℚ
  valStdSq : List (Option ℚ)
deriving DecidableEq

/-- `McAnalysis.averageMode`: per mode column, the mean and the sample
standard deviation (always `ddof = 1`) over the repetition rows. -/
def averageMode (concatModes : List (List ℚ)) : AveragedMode :=
  ⟨meanAx0 concatModes, stdSqAx0 1 concatModes⟩

/-- The scaled-intensity row built in `McAnalysis.histAndLoadReps`:
`concatI[repetition] = modelI * x0[0] + x0[1]`. -/
def concatIRow (modelI : List ℚ) (x0 : ℚ × ℚ) : List ℚ :=
  modelI.map (fun v => v * x0.1 + x0.2)

/-- The averaged-intensity table built by `McAnalysis.averageI`
(its `modelIStd` column represented squared). -/
structure AveragedI where
  modelIMean : List ℚ
  modelIStdSq : List (Option ℚ)
deriving DecidableEq

/-- `McAnalysis.averageI`: per Q-point mean and population standard
deviation (numpy default `ddof = 0`) of the scaled intensity rows over the
discovered repetitions. -/
def averageI (repList : List ℕ) (modelI : ℕ → List ℚ) (x0 : ℕ → ℚ × ℚ) :
    AveragedI :=
  let rows := repList.map (fun r => concatIRow (modelI r) (x0 r))
  ⟨meanAx0 rows, stdSqAx0 0 rows⟩

/-! ### The checkpoint store helper, `mcsas3/McHDF.py` -/

/-- A value storable by `McHDF._HDFstoreKV`: an array (tuples and lists are
converted to arrays first), or a non-array scalar/string.  The Python
`None` is kept outside this type, as `Option HDFValue`. -/
inductive HDFValue
  | arr (xs : List ℚ)
  | num (x : ℚ)
  | vstr (s : String)
deriving DecidableEq

/-- An HDF5 file as the core uses it: the set of existing group paths and an
association of `(path, key)` to stored dataset values. -/
structure HDFFile where
  groups : List String
  datasets : List ((String × String) × HDFValue)
deriving DecidableEq

/-- `h5py.File.require_group`: create the group at `path` when absent. -/
def requireGroup (f : HDFFile) (path : String) : HDFFile :=
  if path ∈ f.groups then f else { f with groups := f.groups ++ [path] }

/-- Look up the dataset stored at `(path, key)`. -/
def lookupDataset (f : HDFFile) (path key : String) : Option HDFValue :=
  (f.datasets.find? (fun e => e.1 = (path, key))).map (fun e => e.2)

/-- `h5py.Group.require_dataset` as used for arrays: create the dataset when
absent; an existing (compatible) dataset is left as it is. -/
def requireDataset (f : HDFFile) (path key : String) (v : HDFValue) :
    HDFFile :=
  match lookupDataset f path key with
  | some _ => f
  | none => { f with datasets := f.datasets ++ [((path, key), v)] }

/-- Overwrite the dataset at `(path, key)` (the `dset[()] = value` branch). -/
def setDataset (f : HDFFile) (path key : String) (v : HDFValue) : HDFFile :=
  { f with datasets :=
      f.datasets.map (fun e => if e.1 = (path, key) then (e.1, v) else e) }

/-- `McHDF._HDFstoreKV`: ensure the group at `path` exists; store arrays via
`require_dataset`; store other non-`None` values by overwriting an existing
dataset or creating a fresh one; skip `None` values entirely. -/
def HDFstoreKV (f : HDFFile) (path key : String) (value : Option HDFValue) :
    HDFFile :=
  let f1 := requireGroup f path
  match value with
  | none => f1
  | some (.arr xs) => requireDataset f1 path key (.arr xs)
  | some v =>
    match lookupDataset f1 path key with
    | none => { f1 with datasets := f1.datasets ++ [((path, key), v)] }
    | some _ => setDataset f1 path key v

/-! ### Structural lemmas about the MC core step -/

/-- The trial total intensity formed by `McCore.reEvaluate`:
`modelI + (Ipick - Iold)/nContrib`, with both `Ipick` and `Iold` obtained by
fresh kernel calls. -/
def testIntensity (su : McSetup P) (s : McState P) : List ℚ :=
  vecAdd s.opt.modelI
    (vecDivS (vecSub (calcModelIV su.callFq s.model.pickParameters).1
      (calcModelIV su.callFq
        (s.model.parameterSet.getD (contribIndex s) default)).1)
      (s.model.nContrib : ℚ))

/-- Characterization of a successful `reEvaluate`: it succeeds exactly when
the OSB succeeds on the trial intensity, and the resulting state differs from
the input only in the scratch trial fields. -/
theorem reEvaluate_eq_match (su : McSetup P) (s : McState P) :
    reEvaluate su s =
      match su.osbMatch (testIntensity su s) s.opt.x0 with
      | .error e => .error e
      | .ok r => .ok ({ s with opt := { s.opt with
          testModelI := testIntensity su s,
          testModelV := (calcModelIV su.callFq s.model.pickParameters).2,
          testX0 := r.1 } }, r.2) := rfl

/-- Characterization of a successful `reEvaluate`: it succeeds exactly when
the OSB succeeds on the trial intensity, and the resulting state differs from
the input only in the scratch trial fields. -/
theorem reEvaluate_ok_iff (su : McSetup P) (s s1 : McState P) (g : ℚ) :
    reEvaluate su s = Except.ok (s1, g) ↔
      ∃ tx0, su.osbMatch (testIntensity su s) s.opt.x0 = Except.ok (tx0, g) ∧
        s1 = { s with opt := { s.opt with
          testModelI := testIntensity su s,
          testModelV := (calcModelIV su.callFq s.model.pickParameters).2,
          testX0 := tx0 } } := by
  rw [reEvaluate_eq_match]
  cases h : su.osbMatch (testIntensity su s) s.opt.x0 with
  | error e => simp
  | ok r =>
    constructor
    · rintro h2
      injection h2 with h3
      injection h3 with h4 h5
      exact ⟨r.1, by rw [← h5], by rw [← h4]⟩
    · rintro ⟨tx0, h6, rfl⟩
      injection h6 with h7
      subst h7
      rfl

/-- A failing `reEvaluate` fails exactly when the OSB fails on the trial
intensity. -/
theorem reEvaluate_error_iff (su : McSetup P) (s : McState P) (e : McError) :
    reEvaluate su s = Except.error e ↔
      su.osbMatch (testIntensity su s) s.opt.x0 = Except.error e := by
  rw [reEvaluate_eq_match]
  cases h : su.osbMatch (testIntensity su s) s.opt.x0 with
  | error e2 => simp
  | ok r => simp

theorem iterate_eq_match (su : McSetup P) (p : P) (s : McState P) :
    iterate su p s =
      match reEvaluate su (setPick p s) with
      | .error e => .error e
      | .ok r =>
        let s2 :=
          if r.2 < r.1.opt.gof then
            { (accept r.1) with opt := { (accept r.1).opt with gof := r.2 } }
          else r.1
        .ok { s2 with opt := { s2.opt with step := s2.opt.step + 1 } } := rfl

/-- A successful `iterate` either accepts (strict improvement) or rejects,
leaving exactly the states prescribed by the source. -/
theorem iterate_cases (su : McSetup P) (p : P) (s s1 t : McState P)
    (newGof : ℚ)
    (hre : reEvaluate su (setPick p s) = Except.ok (s1, newGof))
    (hit : iterate su p s = Except.ok t) :
    (newGof < s1.opt.gof ∧
      t = { (accept s1) with opt := { (accept s1).opt with
        gof := newGof, step := (accept s1).opt.step + 1 } }) ∨
    (¬ newGof < s1.opt.gof ∧
      t = { s1 with opt := { s1.opt with step := s1.opt.step + 1 } }) := by
  rw [iterate_eq_match, hre] at hit
  dsimp only at hit
  by_cases hlt : newGof < s1.opt.gof
  · left
    refine ⟨hlt, ?_⟩
    rw [if_pos hlt] at hit
    injection hit with h
    exact h.symm
  · right
    refine ⟨hlt, ?_⟩
    rw [if_neg hlt] at hit
    injection hit with h
    exact h.symm

/-- The state delivered by a successful `reEvaluate` keeps every
non-scratch field of its input. -/
theorem reEvaluate_ok_fields (su : McSetup P) (s s1 : McState P) (g : ℚ)
    (hre : reEvaluate su s = Except.ok (s1, g)) :
    s1.model = s.model ∧ s1.opt.modelI = s.opt.modelI ∧
    s1.opt.x0 = s.opt.x0 ∧ s1.opt.gof = s.opt.gof ∧
    s1.opt.step = s.opt.step ∧ s1.opt.accepted = s.opt.accepted ∧
    s1.opt.testModelI = testIntensity su s ∧
    s1.opt.testModelV = (calcModelIV su.callFq s.model.pickParameters).2 := by
  obtain ⟨tx0, hosb, rfl⟩ := (reEvaluate_ok_iff su s s1 g).mp hre
  exact ⟨rfl, rfl, rfl, rfl, rfl, rfl, rfl, rfl⟩

/-! ### Claim theorems for the MC core -/

/-- Claim C1: in every MC iteration step the proposed move is accepted iff
the fresh goodness-of-fit is strictly smaller than the current one; a tie is
rejected; and whenever the step is accepted the stored gof strictly
decreases to the new value. -/
theorem iterate_accept_iff_strict_descent (su : McSetup P) (p : P)
    (s s1 t : McState P) (newGof : ℚ)
    (hre : reEvaluate su (setPick p s) = Except.ok (s1, newGof))
    (hit : iterate su p s = Except.ok t) :
    (t.opt.accepted = s.opt.accepted + 1 ↔ newGof < s.opt.gof) ∧
    (newGof = s.opt.gof →
      t.opt.accepted = s.opt.accepted ∧ t.opt.gof = s.opt.gof) ∧
    (t.opt.accepted = s.opt.accepted + 1 →
      t.opt.gof = newGof ∧ t.opt.gof < s.opt.gof) := by
  obtain ⟨hm, hmI, hx0, hgof, hstep, hacc, htI, htV⟩ :=
    reEvaluate_ok_fields su (setPick p s) s1 newGof hre
  have hgof2 : s1.opt.gof = s.opt.gof := hgof
  have hacc2 : s1.opt.accepted = s.opt.accepted := hacc
  rcases iterate_cases su p s s1 t newGof hre hit with ⟨hlt, rfl⟩ | ⟨hge, rfl⟩
  · rw [hgof2] at hlt
    have ha : s1.opt.accepted + 1 = s.opt.accepted + 1 := by rw [hacc2]
    exact ⟨⟨fun _ => hlt, fun _ => ha⟩,
      fun heq => absurd hlt (by rw [heq]; exact lt_irrefl _),
      fun _ => ⟨rfl, hlt⟩⟩
  · rw [hgof2] at hge
    have hne : ¬ (s1.opt.accepted = s.opt.accepted + 1) := by
      rw [hacc2]; omega
    exact ⟨⟨fun h => absurd h hne, fun h => absurd h hge⟩,
      fun _ => ⟨hacc2, hgof2⟩, fun h => absurd h hne⟩

/-- `reEvaluate` never reads the cached `volumes`: replacing them
arbitrarily changes neither the returned GOF nor the trial intensity. -/
theorem reEvaluate_volumes_independent (su : McSetup P) (s : McState P)
    (vols : List ℚ) (s1 : McState P) (g : ℚ)
    (hre : reEvaluate su s = Except.ok (s1, g)) :
    ∃ s2 : McState P,
      reEvaluate su { s with model := { s.model with volumes := vols } } =
        Except.ok (s2, g) ∧ s2.opt.testModelI = s1.opt.testModelI := by
  obtain ⟨tx0, hosb, rfl⟩ := (reEvaluate_ok_iff su s s1 g).mp hre
  exact ⟨_, (reEvaluate_ok_iff su _ _ g).mpr ⟨tx0, hosb, rfl⟩, rfl⟩

/-- Claim C2: at every step the contribution considered for replacement is
`step % nContrib`; its old intensity is recomputed by a fresh kernel call on
`parameterSet[step % nContrib]` rather than read from the `volumes` cache
(the outcome is unchanged under arbitrary replacement of `volumes`), and the
trial intensity is `modelI + (Ipick − Iold)/nContrib` with
`Ipick = Fsq_pick/V_pick` and `Iold = Fsq_old/V_old`. -/
theorem reEvaluate_round_robin_formula (su : McSetup P) (p : P)
    (s s1 : McState P) (g : ℚ)
    (hre : reEvaluate su (setPick p s) = Except.ok (s1, g)) :
    contribIndex (setPick p s) = s.opt.step % s.model.nContrib ∧
    s1.opt.testModelI = vecAdd s.opt.modelI (vecDivS (vecSub
        (calcModelIV su.callFq p).1
        (calcModelIV su.callFq (s.model.parameterSet.getD
          (s.opt.step % s.model.nContrib) default)).1)
      (s.model.nContrib : ℚ)) ∧
    s1.opt.testModelV = (calcModelIV su.callFq p).2 ∧
    ∀ vols : List ℚ, ∃ s2 : McState P,
      reEvaluate su (setPick p
          { s with model := { s.model with volumes := vols } }) =
        Except.ok (s2, g) ∧ s2.opt.testModelI = s1.opt.testModelI := by
  have hvols : ∀ vols : List ℚ, ∃ s2 : McState P,
      reEvaluate su (setPick p
          { s with model := { s.model with volumes := vols } }) =
        Except.ok (s2, g) ∧ s2.opt.testModelI = s1.opt.testModelI := by
    intro vols
    exact reEvaluate_volumes_independent su (setPick p s) vols s1 g hre
  obtain ⟨tx0, hosb, rfl⟩ := (reEvaluate_ok_iff su (setPick p s) s1 g).mp hre
  exact ⟨rfl, rfl, rfl, hvols⟩

/-- Claim C4: a rejected step leaves `parameterSet`, `volumes`, `modelI`,
`x0` and `gof` unchanged; the step counter always increases by exactly one;
an accepted step commits `testModelI`, `testX0`, the pick volume, the pick
parameters, increments `accepted` and stores the new GOF. -/
theorem iterate_frame_and_update (su : McSetup P) (p : P)
    (s s1 t : McState P) (newGof : ℚ)
    (hre : reEvaluate su (setPick p s) = Except.ok (s1, newGof))
    (hit : iterate su p s = Except.ok t) :
    t.opt.step = s.opt.step + 1 ∧
    (¬ newGof < s.opt.gof →
      t.model.parameterSet = s.model.parameterSet ∧
      t.model.volumes = s.model.volumes ∧
      t.opt.modelI = s.opt.modelI ∧ t.opt.x0 = s.opt.x0 ∧
      t.opt.gof = s.opt.gof ∧ t.opt.accepted = s.opt.accepted) ∧
    (newGof < s.opt.gof →
      t.opt.modelI = s1.opt.testModelI ∧ t.opt.x0 = s1.opt.testX0 ∧
      t.model.volumes = s.model.volumes.set
        (s.opt.step % s.model.nContrib) s1.opt.testModelV ∧
      t.model.parameterSet = s.model.parameterSet.set
        (s.opt.step % s.model.nContrib) p ∧
      t.opt.accepted = s.opt.accepted + 1 ∧ t.opt.gof = newGof) := by
  obtain ⟨hm, hmI, hx0, hgof, hstep, hacc, htI, htV⟩ :=
    reEvaluate_ok_fields su (setPick p s) s1 newGof hre
  have hgof2 : s1.opt.gof = s.opt.gof := hgof
  have hacc2 : s1.opt.accepted = s.opt.accepted := hacc
  have hstep2 : s1.opt.step = s.opt.step := hstep
  have hmI2 : s1.opt.modelI = s.opt.modelI := hmI
  have hx02 : s1.opt.x0 = s.opt.x0 := hx0
  have hvol : s1.model.volumes = s.model.volumes := by rw [hm]; rfl
  have hps : s1.model.parameterSet = s.model.parameterSet := by rw [hm]; rfl
  have hnc : s1.model.nContrib = s.model.nContrib := by rw [hm]; rfl
  have hpp : s1.model.pickParameters = p := by rw [hm]; rfl
  rcases iterate_cases su p s s1 t newGof hre hit with ⟨hlt, rfl⟩ | ⟨hge, rfl⟩
  · rw [hgof2] at hlt
    refine ⟨?_, fun h => absurd hlt h, fun _ => ⟨rfl, rfl, ?_, ?_, ?_, rfl⟩⟩
    · show s1.opt.step + 1 = s.opt.step + 1
      rw [hstep2]
    · show s1.model.volumes.set (s1.opt.step % s1.model.nContrib)
          s1.opt.testModelV = _
      rw [hvol, hnc, hstep2]
    · show s1.model.parameterSet.set (s1.opt.step % s1.model.nContrib)
          s1.model.pickParameters = _
      rw [hps, hnc, hstep2, hpp]
    · show s1.opt.accepted + 1 = s.opt.accepted + 1
      rw [hacc2]
  · rw [hgof2] at hge
    refine ⟨?_, fun _ => ⟨hps, hvol, hmI2, hx02, hgof2, hacc2⟩,
      fun h => absurd h hge⟩
    show s1.opt.step + 1 = s.opt.step + 1
    rw [hstep2]

/-- Claim C3: the optimization loop runs exactly while
`accepted < maxAccept ∧ step < maxIter ∧ gof > convCrit` and exits as soon
as this guard fails; in particular when the current `gof` does not exceed
`convCrit` the loop body never runs and the state (hence `accepted` and
`step`) is returned untouched. -/
theorem optimize_guard_exit (su : McSetup P) (picks : ℕ → P) (fuel : ℕ)
    (s : McState P)
    (h : ¬ (s.opt.accepted < s.opt.maxAccept ∧ s.opt.step < s.opt.maxIter ∧
      s.opt.convCrit < s.opt.gof)) :
    optimizeAux su picks fuel s = Except.ok s ∧
    optimize su picks s = Except.ok s := by
  have hall : ∀ f : ℕ, optimizeAux su picks f s = Except.ok s := by
    intro f
    cases f with
    | zero => rfl
    | succ f2 => simp only [optimizeAux, if_neg h]
  exact ⟨hall fuel, hall _⟩

/-- When `reEvaluate` fails, `iterate` propagates the same error. -/
theorem iterate_error_of_reEvaluate_error (su : McSetup P) (p : P)
    (s : McState P) (e : McError)
    (hre : reEvaluate su (setPick p s) = Except.error e) :
    iterate su p s = Except.error e := by
  rw [iterate_eq_match, hre]

/-- Claim C8 (amended): an OSB failure (e.g. `IllConditioned`) while
evaluating a trial step is NOT treated as a rejection; it propagates out of
`iterate`, and when the loop guard holds the whole optimization run aborts
with that error (there is no exception handler in `McCore`). -/
theorem iterate_osb_failure_aborts (su : McSetup P) (p : P) (s : McState P)
    (e : McError) (picks : ℕ → P) (fuel : ℕ)
    (hre : reEvaluate su (setPick p s) = Except.error e)
    (hp : picks s.opt.step = p)
    (hguard : s.opt.accepted < s.opt.maxAccept ∧ s.opt.step < s.opt.maxIter ∧
      s.opt.convCrit < s.opt.gof) :
    iterate su p s = Except.error e ∧
    optimizeAux su picks (fuel + 1) s = Except.error e := by
  have hiter : iterate su p s = Except.error e :=
    iterate_error_of_reEvaluate_error su p s e hre
  refine ⟨hiter, ?_⟩
  simp only [optimizeAux, if_pos hguard, hp, hiter]

/-! ### Concrete instances used by the witnesses and counterexamples -/

/-- A one-parameter toy kernel: `Fsq = [r]`, `V_shell = 1`. -/
def callFqC : ℚ → List ℚ × ℚ := fun r => ([r], 1)

/-- A toy OSB that keeps the warm start and reports the summed intensity as
GOF. -/
def osbC : List ℚ → ℚ × ℚ → Except McError ((ℚ × ℚ) × ℚ) :=
  fun td x0 => .ok (x0, td.sum)

/-- Toy setup with a well-behaved OSB. -/
def suC : McSetup ℚ := ⟨callFqC, osbC⟩

/-- Toy setup whose OSB always fails with `IllConditioned`. -/
def suBad : McSetup ℚ := ⟨callFqC, fun _ _ => .error .illConditioned⟩

/-- A small concrete core state with two contributions. -/
def sC : McState ℚ :=
  { model := { nContrib := 2, parameterSet := [1, 2], volumes := [1, 1],
               pickParameters := 0 },
    opt := { modelI := [3], testModelI := [], testModelV := 0,
             x0 := (1, 0), testX0 := (1, 0), gof := 10, step := 0,
             accepted := 0, maxIter := 100, maxAccept := 100,
             convCrit := 1 } }

/-- The state produced by `reEvaluate suC (setPick 4 sC)` (checked by
evaluation): trial intensity `[3 + (4 − 1)/2] = [9/2]`, pick volume 1. -/
def s1C : McState ℚ :=
  { model := { nContrib := 2, parameterSet := [1, 2], volumes := [1, 1],
               pickParameters := 4 },
    opt := { sC.opt with testModelI := [9/2], testModelV := 1 } }

/-- The state produced by `iterate suC 4 sC` (an accepted move). -/
def tC : McState ℚ :=
  { model := { nContrib := 2, parameterSet := [4, 2], volumes := [1, 1],
               pickParameters := 4 },
    opt := { modelI := [9/2], testModelI := [9/2], testModelV := 1,
             x0 := (1, 0), testX0 := (1, 0), gof := 9/2, step := 1,
             accepted := 1, maxIter := 100, maxAccept := 100,
             convCrit := 1 } }

/-- Claim C1 witness: the accept-iff-strict-descent theorem applied at a
concrete accepted step. -/
theorem iterate_accept_iff_strict_descent_witness :
    (tC.opt.accepted = sC.opt.accepted + 1 ↔ (9/2 : ℚ) < sC.opt.gof) ∧
    ((9/2 : ℚ) = sC.opt.gof →
      tC.opt.accepted = sC.opt.accepted ∧ tC.opt.gof = sC.opt.gof) ∧
    (tC.opt.accepted = sC.opt.accepted + 1 →
      tC.opt.gof = (9/2 : ℚ) ∧ tC.opt.gof < sC.opt.gof) :=
  iterate_accept_iff_strict_descent suC 4 sC s1C tC (9/2)
    (by
      rw [reEvaluate_eq_match]
      norm_num [testIntensity, calcModelIV, vecAdd, vecSub, vecDivS, suC, sC,
        s1C, setPick, contribIndex, callFqC, osbC])
    (by
      rw [iterate_eq_match]
      norm_num [reEvaluate_eq_match, testIntensity, calcModelIV, vecAdd,
        vecSub, vecDivS, suC, sC, tC, setPick, contribIndex, callFqC, osbC,
        accept])

/-- Claim C2 witness: the trial-intensity formula evaluated at a concrete
step. -/
theorem reEvaluate_round_robin_formula_witness :
    s1C.opt.testModelI = vecAdd sC.opt.modelI (vecDivS (vecSub
        (calcModelIV suC.callFq (4 : ℚ)).1
        (calcModelIV suC.callFq (sC.model.parameterSet.getD
          (sC.opt.step % sC.model.nContrib) default)).1)
      (sC.model.nContrib : ℚ)) ∧
    s1C.opt.testModelV = (calcModelIV suC.callFq (4 : ℚ)).2 := by
  have h := reEvaluate_round_robin_formula suC 4 sC s1C (9/2)
    (by
      rw [reEvaluate_eq_match]
      norm_num [testIntensity, calcModelIV, vecAdd, vecSub, vecDivS, suC, sC,
        s1C, setPick, contribIndex, callFqC, osbC])
  exact ⟨h.2.1, h.2.2.1⟩

/-- Claim C4 witness: the frame/update theorem applied at a concrete
accepted step. -/
theorem iterate_frame_and_update_witness :
    tC.opt.step = sC.opt.step + 1 ∧ tC.opt.accepted = sC.opt.accepted + 1 ∧
    tC.opt.gof = (9/2 : ℚ) ∧
    tC.model.parameterSet = sC.model.parameterSet.set
      (sC.opt.step % sC.model.nContrib) 4 := by
  have h := iterate_frame_and_update suC 4 sC s1C tC (9/2)
    (by
      rw [reEvaluate_eq_match]
      norm_num [testIntensity, calcModelIV, vecAdd, vecSub, vecDivS, suC, sC,
        s1C, setPick, contribIndex, callFqC, osbC])
    (by
      rw [iterate_eq_match]
      norm_num [reEvaluate_eq_match, testIntensity, calcModelIV, vecAdd,
        vecSub, vecDivS, suC, sC, tC, setPick, contribIndex, callFqC, osbC,
        accept])
  have h2 := h.2.2 (by norm_num [sC])
  exact ⟨h.1, h2.2.2.2.2.1, h2.2.2.2.2.2, h2.2.2.2.1⟩

/-- A concrete state whose `convCrit` is already huge (spec scenario S6). -/
def sHuge : McState ℚ :=
  { sC with opt := { sC.opt with convCrit := 1000000000000 } }

/-- Claim C3 witness: a run whose initial `gof` does not exceed `convCrit`
performs no step at all, leaving `accepted = step = 0`. -/
theorem optimize_guard_exit_witness :
    optimizeAux suC (fun _ => (0 : ℚ)) 5 sHuge = Except.ok sHuge ∧
    sHuge.opt.accepted = 0 ∧ sHuge.opt.step = 0 :=
  ⟨(optimize_guard_exit suC (fun _ => (0 : ℚ)) 5 sHuge (by decide)).1,
    by decide, by decide⟩

/-- Claim C8 counterexample: with an OSB failing `IllConditioned` on the
trial step, `iterate` does not produce any successor state (so the step is
not "treated as a rejection"); the error escapes and the optimization run
aborts with it. -/
theorem iterate_osb_failure_counterexample :
    iterate suBad (0 : ℚ) sC = Except.error McError.illConditioned ∧
    isOkE (iterate suBad (0 : ℚ) sC) = false ∧
    optimizeAux suBad (fun _ => (0 : ℚ)) 3 sC =
      Except.error McError.illConditioned := by decide

/-- Claim C8 witness (for the amended statement): the propagation theorem
applied at a concrete failing step. -/
theorem iterate_osb_failure_aborts_witness :
    iterate suBad (0 : ℚ) sC = Except.error McError.illConditioned ∧
    optimizeAux suBad (fun _ => (0 : ℚ)) 3 sC =
      Except.error McError.illConditioned := by
  have h := iterate_osb_failure_aborts suBad 0 sC McError.illConditioned
    (fun _ => (0 : ℚ)) 2 (by decide) (by decide) (by decide)
  exact ⟨h.1, h.2⟩

/-- Claim C5: loading a stored repetition recomputes `modelI`, the volumes,
`x0` and `gof` from scratch, succeeds exactly when the stored `gof`,
scaling and background agree with the recomputed values to 3 significant
figures, and fails with a reload mismatch on any disagreement. -/
theorem load_recompute_and_check (su : McSetup P) (loaded : McState P)
    (tx0 : ℚ × ℚ) (g : ℚ)
    (hosb : su.osbMatch (initModelICalc su.callFq loaded.model).1
      loaded.opt.x0 = Except.ok (tx0, g)) :
    initFromLoad su loaded =
      if assertApproxOk 3 loaded.opt.gof g &&
          assertApproxOk 3 loaded.opt.x0.1 tx0.1 &&
          assertApproxOk 3 loaded.opt.x0.2 tx0.2 then
        Except.ok { loaded with
          model := { loaded.model with
            volumes := (initModelICalc su.callFq loaded.model).2 },
          opt := { loaded.opt with
            modelI := (initModelICalc su.callFq loaded.model).1,
            testX0 := tx0, gof := g, x0 := tx0 } }
      else Except.error McError.reloadMismatch := by
  unfold initFromLoad evaluate
  simp [hosb]

/-- A loaded state whose stored `gof` agrees exactly with the value the
recomputation delivers (`[1/2 + 2/2].sum = 3/2` under the toy kernel and
OSB). -/
def lC : McState ℚ :=
  { sC with opt := { sC.opt with gof := 3/2 } }

/-- Claim C5 witness: the load-consistency theorem applied to a concrete
loaded state whose stored values pass the 3-significant-figure check. -/
theorem load_recompute_and_check_witness :
    isOkE (initFromLoad suC lC) = true := by
  have h := load_recompute_and_check suC lC (1, 0) (3/2)
    (by norm_num [initModelICalc, calcModelIV, vecAdd, vecDivS, suC, sC, lC,
      callFqC, osbC, List.range_succ])
  rw [h]
  norm_num [assertApproxOk, lC, sC, isOkE]

/-! ### Claim theorems for the aggregator and the checkpoint store -/

theorem getD_map_range {α : Type} (n j : ℕ) (f : ℕ → α) (d : α)
    (hj : j < n) : ((List.range n).map f).getD j d = f j := by
  rw [List.getD_eq_getElem _ _ (by simpa using hj)]
  simp

/-- With a single repetition, `std(ddof = 0)` of every histogram column is
0 (its square is `some 0`). -/
theorem stdSqAx0_one_row_ddof_zero (row : List ℚ) :
    stdSqAx0 0 [row] = List.replicate row.length (some 0) := by
  simp only [stdSqAx0]
  rw [List.eq_replicate_iff]
  refine ⟨by simp, ?_⟩
  intro b hb
  simp only [List.mem_map, List.mem_range] at hb
  obtain ⟨j, hj, rfl⟩ := hb
  norm_num

/-- With a single repetition, `std(ddof = 1)` of every column is NaN
(modelled as `none`). -/
theorem stdSqAx0_one_row_ddof_one (row : List ℚ) :
    stdSqAx0 1 [row] = List.replicate row.length none := by
  simp only [stdSqAx0]
  rw [List.eq_replicate_iff]
  refine ⟨by simp, ?_⟩
  intro b hb
  simp only [List.mem_map, List.mem_range] at hb
  obtain ⟨j, hj, rfl⟩ := hb
  norm_num

/-- Claim C6 (amended): when more than one repetition exists,
`averageHistogram` compares the bin edges of only the repetitions listed
first and second; a mismatch between those two fails with
`BinEdgeMismatch`, while agreement of those two lets the averaging succeed
regardless of the edges of any later repetition. -/
theorem averageHistogram_first_two_check (repList : List ℕ) (r0 r1 : ℕ)
    (rest : List ℕ) (hists edges : ℕ → List ℚ)
    (h : repList = r0 :: r1 :: rest) :
    (¬ edges r0 = edges r1 →
      averageHistogram repList hists edges =
        Except.error McError.binEdgeMismatch) ∧
    (edges r0 = edges r1 →
      isOkE (averageHistogram repList hists edges) = true) := by
  subst h
  constructor
  · intro hne
    have hcond : 1 < (r0 :: r1 :: rest).length ∧
        ¬ edges ((r0 :: r1 :: rest).getD 0 0) =
          edges ((r0 :: r1 :: rest).getD 1 0) := by
      constructor
      · simp
      · simpa using hne
    unfold averageHistogram
    rw [if_pos hcond]
  · intro heq
    have hcond : ¬ (1 < (r0 :: r1 :: rest).length ∧
        ¬ edges ((r0 :: r1 :: rest).getD 0 0) =
          edges ((r0 :: r1 :: rest).getD 1 0)) := by
      simp [heq]
    unfold averageHistogram
    rw [if_neg hcond]
    rfl

/-- Claim C7 (amended): hist bar heights use `ddof = 1` only when more than
one repetition exists, so with a single repetition every `yStd` is 0; but
the per-mode `valStd` always uses `ddof = 1`, so with a single repetition
every mode `valStd` is NaN, not 0. -/
theorem singleRep_std (r : ℕ) (hists edges : ℕ → List ℚ)
    (ah : AveragedHistogram) (mrow : List ℚ)
    (h : averageHistogram [r] hists edges = Except.ok ah) :
    ah.yStdSq = List.replicate (hists r).length (some 0) ∧
    (averageMode [mrow]).valStdSq = List.replicate mrow.length none := by
  unfold averageHistogram at h
  rw [if_neg (by simp)] at h
  injection h with h2
  subst h2
  exact ⟨stdSqAx0_one_row_ddof_zero (hists r),
    stdSqAx0_one_row_ddof_one mrow⟩

/-- Concrete histogram heights used by the C6 counterexample and witness. -/
def histsCex : ℕ → List ℚ := fun _ => [1]

/-- Concrete bin edges: repetition 2 disagrees with repetitions 0 and 1. -/
def edgesCex : ℕ → List ℚ := fun r => if r = 2 then [0, 2] else [0, 1]

/-- Claim C6 counterexample: with repetitions `[0, 1, 2]` whose third
repetition has different bin edges, `averageHistogram` succeeds anyway —
the claimed all-pairs assertion does not happen. -/
theorem averageHistogram_spot_check_counterexample :
    isOkE (averageHistogram [0, 1, 2] histsCex edgesCex) = true ∧
    edgesCex 0 ≠ edgesCex 2 := by decide

/-- Claim C6 witness (for the amended statement): a first-two mismatch
fails, and a first-two agreement succeeds despite a later disagreement. -/
theorem averageHistogram_first_two_check_witness :
    averageHistogram [2, 1] histsCex edgesCex =
      Except.error McError.binEdgeMismatch ∧
    isOkE (averageHistogram [0, 1, 2] histsCex edgesCex) = true := by
  have h1 := (averageHistogram_first_two_check [2, 1] 2 1 [] histsCex
    edgesCex rfl).1 (by decide)
  have h2 := (averageHistogram_first_two_check [0, 1, 2] 0 1 [2] histsCex
    edgesCex rfl).2 (by decide)
  exact ⟨h1, h2⟩

/-- Claim C7 counterexample: with a single repetition the averaged mode
`valStd` column is all-NaN (`none`), not all-zero as claimed. -/
theorem averageMode_single_rep_counterexample :
    (averageMode [[5, 4, 3, 2, 1]]).valStdSq = List.replicate 5 none ∧
    (averageMode [[5, 4, 3, 2, 1]]).valStdSq ≠
      List.replicate 5 (some (0 : ℚ)) := by decide

/-- Concrete single-repetition bar heights for the C7 witness. -/
def histsW : ℕ → List ℚ := fun _ => [1, 2]

/-- Concrete bin edges for the C7 witness. -/
def edgesW : ℕ → List ℚ := fun _ => [0, 1, 3]

/-- The averaged histogram that `averageHistogram [0] histsW edgesW`
produces (checked by evaluation). -/
def ahW : AveragedHistogram := ⟨[1, 2], [some 0, some 0], [1, 2], [1/2, 2]⟩

/-- Claim C7 witness: the single-repetition theorem applied at a concrete
input. -/
theorem singleRep_std_witness :
    ahW.yStdSq = List.replicate 2 (some (0 : ℚ)) ∧
    (averageMode [[(5 : ℚ), 4]]).valStdSq = List.replicate 2 none := by
  have h := singleRep_std 0 histsW edgesW ahW [5, 4]
    (by norm_num [averageHistogram, histsW, edgesW, ahW, meanAx0, stdSqAx0,
      List.range_succ])
  exact ⟨h.1, h.2⟩

/-- The column at index `j` of a stack of rows. -/
def colAt (j : ℕ) (rows : List (List ℚ)) : List ℚ :=
  rows.map (fun row => row.getD j 0)

theorem concatIRow_getD (m : List ℚ) (x : ℚ × ℚ) (j : ℕ)
    (hj : j < m.length) :
    (concatIRow m x).getD j 0 = m.getD j 0 * x.1 + x.2 := by
  unfold concatIRow
  rw [List.getD_eq_getElem _ _ (by simpa using hj),
    List.getD_eq_getElem _ _ hj]
  simp

theorem meanAx0_getD (rows : List (List ℚ)) (row0 : List ℚ)
    (rest : List (List ℚ)) (hrows : rows = row0 :: rest) (j : ℕ)
    (hj : j < row0.length) :
    (meanAx0 rows).getD j 0 = (colAt j rows).sum / (rows.length : ℚ) := by
  subst hrows
  simp only [meanAx0]
  rw [getD_map_range _ _ _ _ hj]
  rfl

theorem stdSqAx0_getD (ddof : ℕ) (rows : List (List ℚ)) (row0 : List ℚ)
    (rest : List (List ℚ)) (hrows : rows = row0 :: rest) (j : ℕ)
    (hj : j < row0.length) (hd : ¬ rows.length ≤ ddof) :
    (stdSqAx0 ddof rows).getD j none =
      some (((colAt j rows).map (fun x =>
        (x - (colAt j rows).sum / ((colAt j rows).length : ℚ)) ^ 2)).sum /
        ((rows.length - ddof : ℕ) : ℚ)) := by
  subst hrows
  simp only [stdSqAx0]
  rw [getD_map_range _ _ _ _ hj]
  rw [if_neg hd]
  rfl

/-- Claim C9: per repetition the scaled intensity is
`scaling · modelI + background`, and `modelIMean` / `modelIStd` are, per
Q-point, the mean and the (population, squared here) standard deviation of
these scaled vectors across the discovered repetitions. -/
theorem averageI_pointwise (repList : List ℕ) (modelI : ℕ → List ℚ)
    (x0 : ℕ → ℚ × ℚ) (K j : ℕ)
    (hne : repList ≠ []) (hlen : ∀ r ∈ repList, (modelI r).length = K)
    (hj : j < K) :
    (averageI repList modelI x0).modelIMean.getD j 0 =
      (repList.map (fun r =>
        (modelI r).getD j 0 * (x0 r).1 + (x0 r).2)).sum /
        (repList.length : ℚ) ∧
    (averageI repList modelI x0).modelIStdSq.getD j none =
      some (((repList.map (fun r =>
          (modelI r).getD j 0 * (x0 r).1 + (x0 r).2)).map (fun x =>
        (x - (repList.map (fun r =>
          (modelI r).getD j 0 * (x0 r).1 + (x0 r).2)).sum /
          (repList.length : ℚ)) ^ 2)).sum / (repList.length : ℚ)) := by
  obtain ⟨r, rs, rfl⟩ := List.exists_cons_of_ne_nil hne
  have hlen0 : (concatIRow (modelI r) (x0 r)).length = K := by
    simp [concatIRow, hlen r (List.mem_cons_self r rs)]
  have hj0 : j < (concatIRow (modelI r) (x0 r)).length := by
    rw [hlen0]; exact hj
  have hcol : colAt j ((r :: rs).map (fun r2 =>
      concatIRow (modelI r2) (x0 r2))) = (r :: rs).map (fun r2 =>
      (modelI r2).getD j 0 * (x0 r2).1 + (x0 r2).2) := by
    simp only [colAt, List.map_map]
    apply List.map_congr_left
    intro a ha
    have hja : j < (modelI a).length := by rw [hlen a ha]; exact hj
    show (concatIRow (modelI a) (x0 a)).getD j 0 = _
    exact concatIRow_getD (modelI a) (x0 a) j hja
  have hrows : ((r :: rs).map (fun r2 =>
      concatIRow (modelI r2) (x0 r2))).length = (r :: rs).length := by
    simp
  constructor
  · have h1 := meanAx0_getD ((r :: rs).map (fun r2 =>
      concatIRow (modelI r2) (x0 r2))) (concatIRow (modelI r) (x0 r))
      (rs.map (fun r2 => concatIRow (modelI r2) (x0 r2)))
      (by simp) j hj0
    rw [show (averageI (r :: rs) modelI x0).modelIMean =
      meanAx0 ((r :: rs).map (fun r2 => concatIRow (modelI r2) (x0 r2)))
      from rfl]
    rw [h1, hcol, hrows]
  · have h2 := stdSqAx0_getD 0 ((r :: rs).map (fun r2 =>
      concatIRow (modelI r2) (x0 r2))) (concatIRow (modelI r) (x0 r))
      (rs.map (fun r2 => concatIRow (modelI r2) (x0 r2)))
      (by simp) j hj0 (by simp)
    rw [show (averageI (r :: rs) modelI x0).modelIStdSq =
      stdSqAx0 0 ((r :: rs).map (fun r2 => concatIRow (modelI r2) (x0 r2)))
      from rfl]
    rw [h2, hcol]
    simp

/-- Concrete per-repetition model intensities for the C9 witness. -/
def mIC : ℕ → List ℚ := fun r => if r = 0 then [1, 2] else [3, 4]

/-- Concrete per-repetition `(scaling, background)` pairs for the C9
witness. -/
def x0C : ℕ → ℚ × ℚ := fun r => if r = 0 then (2, 1) else (1, 0)

/-- Claim C9 witness: the pointwise averaging theorem applied at Q-point 1
of a concrete two-repetition data set. -/
theorem averageI_pointwise_witness :
    (averageI [0, 1] mIC x0C).modelIMean.getD 1 0 =
      (([0, 1] : List ℕ).map (fun r =>
        (mIC r).getD 1 0 * (x0C r).1 + (x0C r).2)).sum /
        ((([0, 1] : List ℕ).length : ℚ)) ∧
    (averageI [0, 1] mIC x0C).modelIStdSq.getD 1 none =
      some (((([0, 1] : List ℕ).map (fun r =>
          (mIC r).getD 1 0 * (x0C r).1 + (x0C r).2)).map (fun x =>
        (x - (([0, 1] : List ℕ).map (fun r =>
          (mIC r).getD 1 0 * (x0C r).1 + (x0C r).2)).sum /
          ((([0, 1] : List ℕ).length : ℚ))) ^ 2)).sum /
        ((([0, 1] : List ℕ).length : ℚ))) :=
  averageI_pointwise [0, 1] mIC x0C 2 1 (by decide) (by decide) (by decide)

/-- Claim C10: storing `None` writes no dataset: the call equals a bare
`require_group` — the group at `path` exists afterwards, the dataset table
is untouched, and every lookup is unchanged. -/
theorem HDFstoreKV_none_writes_nothing (f : HDFFile) (path key : String) :
    HDFstoreKV f path key none = requireGroup f path ∧
    (HDFstoreKV f path key none).datasets = f.datasets ∧
    path ∈ (HDFstoreKV f path key none).groups ∧
    ∀ p k : String, lookupDataset (HDFstoreKV f path key none) p k =
      lookupDataset f p k := by
  have h1 : HDFstoreKV f path key none = requireGroup f path := rfl
  have h2 : (requireGroup f path).datasets = f.datasets := by
    unfold requireGroup
    split <;> rfl
  refine ⟨h1, by rw [h1, h2], ?_, ?_⟩
  · rw [h1]
    unfold requireGroup
    split
    · assumption
    · simp
  · intro p k
    rw [h1]
    unfold lookupDataset
    rw [h2]
